import Mathlib

/-!
# Verification of the cash/billing back office (FastAPI `server.py`)

Shallow embedding of the billing & installment lifecycle, payment
allocation, transaction ledger, RBAC permission checks and audit
logging of `src/backend/server.py`.  Entities are modelled as Lean
structures, the Mongo collections as lists, and each endpoint body as a
function `DB → ⋯ → DB × Except Err α`: the returned `DB` is the store
state after the request (so a request that fails after a write still
shows the write), and the `Except` is the HTTP outcome.

Modelling conventions:
* uuids are abstracted as `ℕ` (fresh ids are passed as arguments);
* `datetime` timestamps are `ℤ` (seconds); `timedelta(days=d)` adds
  `d * secondsPerDay`;
* monetary `float`s are modelled as `ℚ`; Python `/` is `ℚ` division;
* denormalized display-only strings (client/product names inside bills,
  transactions, log descriptions and details payloads) are elided: they
  are rendering data never read back by any of the verified operations;
* bcrypt hashing and verification are black-box function parameters;
* `update_one` is `updateFirst` (first match), `update_many` a `map`.
-/

/-- `UserRole` enum of the source. -/
inductive UserRole
  | admin
  | manager
  | reception
  | vendas
deriving DecidableEq, Repr

/-- The string stored in the users collection for each role value. -/
def UserRole.toRoleString : UserRole → String
  | .admin => "admin"
  | .manager => "manager"
  | .reception => "reception"
  | .vendas => "vendas"

/-- `TransactionType` enum of the source. -/
inductive TransactionType
  | entrada
  | saida
  | pagamento_cliente
deriving DecidableEq, Repr

/-- `PaymentMethod` enum of the source. -/
inductive PaymentMethod
  | dinheiro
  | cartao
  | pix
  | boleto
deriving DecidableEq, Repr

/-- `BillStatus` enum of the source (also used for installment status). -/
inductive BillStatus
  | pending
  | paid
  | overdue
  | cancelled
deriving DecidableEq, Repr

/-- `ActivityType` enum of the source. -/
inductive ActivityType
  | user_created
  | user_deactivated
  | user_activated
  | user_deleted
  | user_password_changed
  | user_permissions_changed
  | transaction_created
  | transaction_modified
  | transaction_cancelled
  | product_created
  | product_modified
  | product_deleted
  | bill_created
  | bill_paid
  | bill_cancelled
  | payment_cancelled
  | client_payment_received
  | client_created
  | client_modified
  | login
  | login_failed
  | sale_created
deriving DecidableEq, Repr

/-- The authenticated caller (the parsed `User` pydantic model: role is
already decoded into the enum; `permissions` is the per-user grant map). -/
structure User where
  id : ℕ
  username : String
  role : UserRole
  permissions : List (String × Bool)
  active : Bool
deriving DecidableEq, Repr

/-- A user document as stored in the `users` collection: `role` is the raw
string (legacy documents may hold `"salesperson"`). -/
structure StoredUser where
  id : ℕ
  username : String
  password : String
  role : String
  active : Bool
  require_password_change : Bool
deriving DecidableEq, Repr

/-- A client document (fields the verified operations read). -/
structure Client where
  id : ℕ
  name : String
  cpf : String
deriving DecidableEq, Repr

/-- A product document (fields the verified operations read). -/
structure Product where
  id : ℕ
  code : String
  name : String
  price : ℚ
deriving DecidableEq, Repr

/-- A bill document. -/
structure Bill where
  id : ℕ
  client_id : ℕ
  product_id : Option ℕ
  total_amount : ℚ
  installments : ℕ
  installment_amount : ℚ
  cancelled : Bool
  cancelled_by : Option ℕ
  cancelled_at : Option ℤ
  created_at : ℤ
  created_by : ℕ
deriving DecidableEq, Repr

/-- A bill-installment document. -/
structure Installment where
  id : ℕ
  bill_id : ℕ
  installment_number : ℕ
  amount : ℚ
  due_date : ℤ
  status : BillStatus
  paid_date : Option ℤ
  payment_method : Option PaymentMethod
  paid_by : Option ℕ
  cancelled : Bool
  cancelled_by : Option ℕ
  cancelled_at : Option ℤ
deriving DecidableEq, Repr

/-- A transaction document. -/
structure Transaction where
  id : ℕ
  type : TransactionType
  amount : ℚ
  payment_method : PaymentMethod
  product_id : Option ℕ
  client_id : Option ℕ
  installment_id : Option ℕ
  user_id : ℕ
  cancelled : Bool
  cancelled_by : Option ℕ
  cancelled_at : Option ℤ
  created_at : ℤ
deriving DecidableEq, Repr

/-- An activity-log document (actor, action kind and timestamp; the
human-readable description and the details payload are rendering data). -/
structure ActivityLog where
  activity_type : ActivityType
  user_id : ℕ
  user_name : String
  timestamp : ℤ
deriving DecidableEq, Repr

/-- The persistent store: one list per Mongo collection. -/
structure DB where
  users : List StoredUser
  clients : List Client
  products : List Product
  bills : List Bill
  bill_installments : List Installment
  transactions : List Transaction
  activity_logs : List ActivityLog
deriving DecidableEq, Repr

/-- An HTTP error outcome (`HTTPException(status_code, detail)`). -/
structure Err where
  code : ℕ
  detail : String
deriving DecidableEq, Repr

/-- Seconds in a day: `timedelta(days := d)` is `d * secondsPerDay`. -/
def secondsPerDay : ℤ := 86400

/-- `update_one` semantics: rewrite the first element matching `p`. -/
def updateFirst (p : α → Bool) (f : α → α) : List α → List α
  | [] => []
  | a :: l => if p a then f a :: l else a :: updateFirst p f l

/-- `log_activity`: append one entry to the `activity_logs` collection. -/
def logActivity (db : DB) (t : ActivityType) (uid : ℕ) (uname : String)
    (now : ℤ) : DB :=
  { db with activity_logs :=
      db.activity_logs ++ [⟨t, uid, uname, now⟩] }

/-- Whether an operation outcome is a success. -/
def isOkE : Except Err α → Bool
  | .ok _ => true
  | .error _ => false

/-! ## Permission matrix (`check_user_permission`) -/

/-- The fixed manager capability list of `check_user_permission`. -/
def manager_permissions : List String :=
  ["users", "products", "clients", "bills", "reports"]

/-- The fixed reception baseline capability list of `check_user_permission`. -/
def reception_basic_permissions : List String :=
  ["cash_operations", "clients"]

/-- `POST /check-permission`: the permission decision for the caller.
Faithful to the source: for the reception role it takes the *keys* of the
permissions dict (`list(current_user.permissions.keys())`), ignoring the
boolean values. -/
def check_user_permission (u : User) (permission_name : String) : Bool :=
  if u.role = .admin then true
  else if u.role = .manager then manager_permissions.contains permission_name
  else if u.role = .reception then
    (reception_basic_permissions ++ u.permissions.map Prod.fst).contains
      permission_name
  else false

/-- The reception-role permission rule as the spec words it ("any capability
explicitly present **and true** in its `PermissionGrant` map"), to be
compared with `check_user_permission`. -/
def spec_reception_permission (u : User) (permission_name : String) : Bool :=
  reception_basic_permissions.contains permission_name ||
    u.permissions.any (fun kv => kv.1 == permission_name && kv.2)

/-! ## Transaction ledger: `create_transaction` -/

/-- The `TransactionCreate` request body.  The pydantic validator rejects
`amount <= 0` before the endpoint body runs; that check is the first step
of the embedded function. -/
structure TransactionCreate where
  type : TransactionType
  amount : ℚ
  payment_method : PaymentMethod
  product_id : Option ℕ
deriving DecidableEq, Repr

/-- `POST /transactions`.  Order of checks follows the source: request
validation (amount), then the saida payment-method business rule, then the
insert and one audit entry.  The optional product lookup only fills
display-only fields and is elided. -/
def create_transaction (db : DB) (u : User) (t : TransactionCreate)
    (now : ℤ) (tid : ℕ) : DB × Except Err Transaction :=
  if t.amount ≤ 0 then
    (db, .error ⟨422, "Valor deve ser maior que zero"⟩)
  else if t.type = .saida ∧ t.payment_method ≠ .dinheiro ∧
      t.payment_method ≠ .pix then
    (db, .error ⟨400, "Saída permitida apenas com dinheiro ou PIX"⟩)
  else
    let tx : Transaction :=
      { id := tid, type := t.type, amount := t.amount
        payment_method := t.payment_method, product_id := t.product_id
        client_id := none, installment_id := none, user_id := u.id
        cancelled := false, cancelled_by := none, cancelled_at := none
        created_at := now }
    let db1 := { db with transactions := db.transactions ++ [tx] }
    (logActivity db1 .transaction_created u.id u.username now, .ok tx)

/-! ## Billing engine and payment allocation -/

/-- The `$set` payload marking an installment paid (used, identically, by
the generic pay path, the bill-scoped pay path and payment allocation). -/
def payUpdate (now : ℤ) (uid : ℕ) (pm : PaymentMethod)
    (i : Installment) : Installment :=
  { i with status := .paid, paid_date := some now
           payment_method := some pm, paid_by := some uid }

/-- The `$set` payload reverting an installment payment (used by
`cancel_transaction` and `cancel_installment_payment`): status back to
pending, payment metadata cleared.  The `cancelled` fields are not
touched. -/
def clearPayment (i : Installment) : Installment :=
  { i with status := .pending, paid_date := none
           payment_method := none, paid_by := none }

/-- Insert an installment into a list sorted by ascending due date. -/
def insertByDue (a : Installment) : List Installment → List Installment
  | [] => [a]
  | b :: l =>
    if a.due_date ≤ b.due_date then a :: b :: l else b :: insertByDue a l

/-- The Mongo `$sort {due_date: 1}` stage: a stable ascending sort by
due date. -/
def sortByDueDate : List Installment → List Installment
  | [] => []
  | a :: l => insertByDue a (sortByDueDate l)

/-- The `$match`/`$lookup`/`$unwind`/`$match` stages of the allocation
pipeline: a pending, non-cancelled installment whose parent bill exists,
is non-cancelled, belongs to the client and references the product. -/
def allocationMatches (db : DB) (cid pid : ℕ) (i : Installment) : Bool :=
  i.status = BillStatus.pending && !i.cancelled &&
    match db.bills.find? (fun b => b.id == i.bill_id) with
    | some b => !b.cancelled && b.client_id == cid && b.product_id == some pid
    | none => false

/-- The full allocation pipeline: matching installments sorted by
ascending due date. -/
def allocationCandidates (db : DB) (cid pid : ℕ) : List Installment :=
  sortByDueDate (db.bill_installments.filter (allocationMatches db cid pid))

/-- The `ClientPaymentCreate` request body. -/
structure ClientPaymentCreate where
  client_id : ℕ
  product_id : ℕ
  payment_method : PaymentMethod
deriving DecidableEq, Repr

/-- `POST /transactions/client-payment` (`create_client_payment`): checks
client and product exist, runs the allocation pipeline, takes its first
row as the oldest pending installment (404 if there is none), marks it
paid, inserts a client-payment transaction carrying the installment's own
amount, and logs one audit entry. -/
def create_client_payment (db : DB) (u : User) (payment : ClientPaymentCreate)
    (now : ℤ) (tid : ℕ) : DB × Except Err Transaction :=
  match db.clients.find? (fun c => c.id == payment.client_id) with
  | none => (db, .error ⟨404, "Cliente não encontrado"⟩)
  | some _client =>
    match db.products.find? (fun p => p.id == payment.product_id) with
    | none => (db, .error ⟨404, "Produto não encontrado"⟩)
    | some _product =>
      match allocationCandidates db payment.client_id payment.product_id with
      | [] =>
        (db, .error ⟨404,
          "Nenhuma parcela pendente encontrada para este cliente e produto"⟩)
      | oldest :: _ =>
        let insts := updateFirst (fun i => i.id == oldest.id)
          (payUpdate now u.id payment.payment_method) db.bill_installments
        let db1 := { db with bill_installments := insts }
        let tx : Transaction :=
          { id := tid, type := .pagamento_cliente, amount := oldest.amount
            payment_method := payment.payment_method
            product_id := some payment.product_id
            client_id := some payment.client_id
            installment_id := some oldest.id, user_id := u.id
            cancelled := false, cancelled_by := none, cancelled_at := none
            created_at := now }
        let db2 := { db1 with transactions := db1.transactions ++ [tx] }
        (logActivity db2 .client_payment_received u.id u.username now, .ok tx)

/-- `PUT /installments/{installment_id}/pay` (the generic single-pay
path): rejects an already-paid, then a cancelled installment, marks it
paid, then reads the parent bill for the log line (the source would crash
after the write if that bill were missing — modelled as a 500 outcome on
the already-updated state) and logs one audit entry. -/
def pay_installment_put (db : DB) (u : User) (iid : ℕ) (pm : PaymentMethod)
    (now : ℤ) : DB × Except Err Unit :=
  match db.bill_installments.find? (fun i => i.id == iid) with
  | none => (db, .error ⟨404, "Parcela não encontrada"⟩)
  | some inst =>
    if inst.status = BillStatus.paid then
      (db, .error ⟨400, "Parcela já foi paga"⟩)
    else if inst.cancelled then
      (db, .error ⟨400, "Parcela cancelada"⟩)
    else
      let insts := updateFirst (fun i => i.id == iid) (payUpdate now u.id pm)
        db.bill_installments
      let db1 := { db with bill_installments := insts }
      match db.bills.find? (fun b => b.id == inst.bill_id) with
      | none => (db1, .error ⟨500, "Internal Server Error"⟩)
      | some _bill =>
        (logActivity db1 .bill_paid u.id u.username now, .ok ())

/-- `POST /bills/installments/{installment_id}/pay` (the bill-scoped
single-pay path): the lookup itself filters `cancelled: False` (a
cancelled installment is a 404), a non-pending status is a 400, then the
parent bill and client are fetched, the installment is marked paid, a
client-payment transaction is inserted and one audit entry logged. -/
def pay_installment_post (db : DB) (u : User) (iid : ℕ) (pm : PaymentMethod)
    (now : ℤ) (tid : ℕ) : DB × Except Err Transaction :=
  match db.bill_installments.find?
      (fun i => i.id == iid && !i.cancelled) with
  | none => (db, .error ⟨404, "Parcela não encontrada"⟩)
  | some inst =>
    if inst.status ≠ BillStatus.pending then
      (db, .error ⟨400, "Parcela já foi paga ou cancelada"⟩)
    else
      match db.bills.find? (fun b => b.id == inst.bill_id) with
      | none => (db, .error ⟨404, "Cobrança não encontrada"⟩)
      | some bill =>
        match db.clients.find? (fun c => c.id == bill.client_id) with
        | none => (db, .error ⟨404, "Cliente não encontrado"⟩)
        | some _client =>
          let insts := updateFirst (fun i => i.id == iid)
            (payUpdate now u.id pm) db.bill_installments
          let db1 := { db with bill_installments := insts }
          let tx : Transaction :=
            { id := tid, type := .pagamento_cliente, amount := inst.amount
              payment_method := pm, product_id := bill.product_id
              client_id := some bill.client_id, installment_id := some iid
              user_id := u.id, cancelled := false, cancelled_by := none
              cancelled_at := none, created_at := now }
          let db2 := { db1 with transactions := db1.transactions ++ [tx] }
          (logActivity db2 .client_payment_received u.id u.username now,
            .ok tx)

/-- `DELETE /transactions/{transaction_id}` (`cancel_transaction`):
admin/manager only; fails on a missing or already-cancelled transaction;
for a client-payment transaction holding an installment link it first
reverts that installment's payment (unconditionally — the installment's
own `cancelled` flag is neither checked nor changed), then marks the
transaction cancelled and logs one audit entry. -/
def cancel_transaction (db : DB) (u : User) (tid : ℕ) (now : ℤ) :
    DB × Except Err Unit :=
  if u.role ≠ UserRole.admin ∧ u.role ≠ UserRole.manager then
    (db, .error ⟨403, "Sem permissão para cancelar transações"⟩)
  else
    match db.transactions.find? (fun t => t.id == tid) with
    | none => (db, .error ⟨404, "Transação não encontrada"⟩)
    | some t =>
      if t.cancelled then (db, .error ⟨400, "Transação já cancelada"⟩)
      else
        let db1 :=
          match t.type, t.installment_id with
          | .pagamento_cliente, some iid =>
            let insts := updateFirst (fun i : Installment => i.id == iid)
              clearPayment db.bill_installments
            { db with bill_installments := insts }
          | _, _ => db
        let txs := updateFirst (fun x : Transaction => x.id == tid)
          (fun x => { x with cancelled := true, cancelled_by := some u.id
                             cancelled_at := some now })
          db1.transactions
        let db2 := { db1 with transactions := txs }
        (logActivity db2 .transaction_cancelled u.id u.username now, .ok ())

/-- `DELETE /bills/{bill_id}/cancel` (`cancel_bill`): admin/manager only;
fails on a missing or already-cancelled bill; stamps the bill cancelled
with actor and timestamp, then `update_many` stamps every installment of
the bill cancelled regardless of its current status, and logs one audit
entry. -/
def cancel_bill (db : DB) (u : User) (bid : ℕ) (now : ℤ) :
    DB × Except Err Unit :=
  if u.role ≠ UserRole.admin ∧ u.role ≠ UserRole.manager then
    (db, .error ⟨403, "Sem permissão para cancelar boletos"⟩)
  else
    match db.bills.find? (fun b => b.id == bid) with
    | none => (db, .error ⟨404, "Boleto não encontrado"⟩)
    | some bill =>
      if bill.cancelled then (db, .error ⟨400, "Boleto já cancelado"⟩)
      else
        let bills := updateFirst (fun b => b.id == bid)
          (fun b => { b with cancelled := true, cancelled_by := some u.id
                             cancelled_at := some now })
          db.bills
        let db1 := { db with bills := bills }
        let insts := db1.bill_installments.map (fun i =>
          if i.bill_id == bid then
            { i with cancelled := true, cancelled_by := some u.id
                     cancelled_at := some now }
          else i)
        let db2 := { db1 with bill_installments := insts }
        (logActivity db2 .bill_cancelled u.id u.username now, .ok ())

/-- The `BillCreate` request body.  The pydantic validator rejects
`installments <= 0` before the endpoint body runs; that check is the
first step of the embedded function. -/
structure BillCreate where
  client_id : ℕ
  product_id : Option ℕ
  total_amount : Option ℚ
  installments : ℕ
deriving DecidableEq, Repr

/-- The product/total handling of `create_bill`: a given product must
exist and its current price overrides any supplied total; otherwise the
supplied total (possibly absent) is used. -/
def resolveTotal (db : DB) (bc : BillCreate) : Except Err (Option ℚ) :=
  match bc.product_id with
  | some pid =>
    match db.products.find? (fun p => p.id == pid) with
    | none => .error ⟨404, "Produto não encontrado"⟩
    | some p => .ok (some p.price)
  | none => .ok bc.total_amount

/-- `POST /bills` (`create_bill`): admin/manager only; the client must
exist; the total is resolved per `resolveTotal` and must be truthy
(`if not total_amount`: absent or zero fails); the per-installment amount
is the plain division `total / installments`; `installments` installment
documents are generated, the k-th (1-based) due `30*k` days after
creation and pending; one audit entry.  `instId k` supplies the fresh id
of the k-th (0-based) installment. -/
def create_bill (db : DB) (u : User) (bc : BillCreate) (now : ℤ) (bid : ℕ)
    (instId : ℕ → ℕ) : DB × Except Err Bill :=
  if bc.installments = 0 then
    (db, .error ⟨422, "Número de parcelas deve ser maior que zero"⟩)
  else if u.role ≠ UserRole.admin ∧ u.role ≠ UserRole.manager then
    (db, .error ⟨403, "Sem permissão para criar boletos"⟩)
  else
    match db.clients.find? (fun c => c.id == bc.client_id) with
    | none => (db, .error ⟨404, "Cliente não encontrado"⟩)
    | some _client =>
      match resolveTotal db bc with
      | .error e => (db, .error e)
      | .ok total? =>
        match total? with
        | none => (db, .error ⟨400, "Valor total deve ser informado"⟩)
        | some total =>
          if total = 0 then
            (db, .error ⟨400, "Valor total deve ser informado"⟩)
          else
            let installment_amount : ℚ := total / bc.installments
            let bill : Bill :=
              { id := bid, client_id := bc.client_id
                product_id := bc.product_id, total_amount := total
                installments := bc.installments
                installment_amount := installment_amount
                cancelled := false, cancelled_by := none
                cancelled_at := none, created_at := now, created_by := u.id }
            let newInsts : List Installment :=
              (List.range bc.installments).map (fun k =>
                { id := instId k, bill_id := bid
                  installment_number := k + 1
                  amount := installment_amount
                  due_date := now + 30 * ((k : ℤ) + 1) * secondsPerDay
                  status := .pending, paid_date := none
                  payment_method := none, paid_by := none
                  cancelled := false, cancelled_by := none
                  cancelled_at := none })
            let db1 := { db with
              bills := db.bills ++ [bill]
              bill_installments := db.bill_installments ++ newInsts }
            (logActivity db1 .bill_created u.id u.username now, .ok bill)

/-! ## Users: password change and login -/

/-- The target-role strings a manager may act on (`"salesperson"` is the
legacy name kept by the source). -/
def managerEditableRoles : List String :=
  ["reception", "salesperson", "vendas"]

/-- `PUT /users/{user_id}/password` (`change_user_password`): the target
must exist; an admin may change any password; a manager only passwords of
reception/sales-role targets; anyone else only their own.  On success the
password hash is stored, the forced-change flag cleared, and one audit
entry logged.  `hash` is the black-box bcrypt hash. -/
def change_user_password (db : DB) (current : User) (user_id : ℕ)
    (newPassword : String) (hash : String → String) (now : ℤ) :
    DB × Except Err Unit :=
  match db.users.find? (fun s => s.id == user_id) with
  | none => (db, .error ⟨404, "Usuário não encontrado"⟩)
  | some user =>
    let apply : DB × Except Err Unit :=
      let users := updateFirst (fun s => s.id == user_id)
        (fun s => { s with password := hash newPassword
                           require_password_change := false })
        db.users
      let db1 := { db with users := users }
      (logActivity db1 .user_password_changed current.id current.username now,
        .ok ())
    if current.role = UserRole.admin then apply
    else if current.role = UserRole.manager then
      if ¬ managerEditableRoles.contains user.role then
        (db, .error ⟨403, "Gerentes só podem alterar senhas da recepção e vendas"⟩)
      else apply
    else
      if user_id ≠ current.id then
        (db, .error ⟨403, "Sem permissão para alterar senha de outro usuário"⟩)
      else apply

/-- `POST /login`: a missing user or a wrong password each log a
`login_failed` audit entry (actor `system`/id 0 for the unknown-user
case) before failing; an inactive user or a pending forced password
change fail without logging; success logs a `login` entry.  `verify` is
the black-box bcrypt check. -/
def login (db : DB) (username password : String)
    (verify : String → String → Bool) (now : ℤ) : DB × Except Err Unit :=
  match db.users.find? (fun s => s.username == username) with
  | none =>
    (logActivity db .login_failed 0 "system" now,
      .error ⟨401, "Usuário ou senha incorretos"⟩)
  | some dbUser =>
    if ¬ verify password dbUser.password then
      (logActivity db .login_failed dbUser.id dbUser.username now,
        .error ⟨401, "Usuário ou senha incorretos"⟩)
    else if ¬ dbUser.active then
      (db, .error ⟨401, "Usuário desativado"⟩)
    else if dbUser.require_password_change then
      (db, .error ⟨401, "É necessário alterar a senha antes de continuar"⟩)
    else
      (logActivity db .login dbUser.id dbUser.username now, .ok ())

/-- The property the spec's audit-completeness sentence asserts of one
operation outcome: the run appended exactly one audit entry if it
succeeded and none if it failed. -/
def auditDelta (db : DB) (r : DB × Except Err α) : Prop :=
  r.1.activity_logs.length =
    db.activity_logs.length + (if isOkE r.2 then 1 else 0)

/-! ## Concrete test fixtures (used by witnesses and counterexamples) -/

/-- Fixture: an admin caller. -/
def adminUser : User := ⟨100, "ADM", .admin, [], true⟩

/-- Fixture: a client. -/
def clientA : Client := ⟨1, "CLIENTE A", "111.111.111-11"⟩

/-- Fixture: a product priced 300. -/
def productP : Product := ⟨2, "P1", "PRODUTO P", 300⟩

/-- Fixture: a bill of 300 in 3 installments for `clientA`/`productP`. -/
def billB : Bill := ⟨10, 1, some 2, 300, 3, 100, false, none, none, 0, 100⟩

/-- Fixture: pending installment 1 of `billB`, due at 100. -/
def inst1 : Installment :=
  ⟨11, 10, 1, 100, 100, .pending, none, none, none, false, none, none⟩

/-- Fixture: pending installment 2 of `billB`, due at 200. -/
def inst2 : Installment :=
  ⟨12, 10, 2, 100, 200, .pending, none, none, none, false, none, none⟩

/-- Fixture: pending installment 3 of `billB`, due at 300. -/
def inst3 : Installment :=
  ⟨13, 10, 3, 100, 300, .pending, none, none, none, false, none, none⟩

/-- Fixture: the base scenario store. -/
def db0 : DB := ⟨[], [clientA], [productP], [billB], [inst1, inst2, inst3], [], []⟩

/-- Fixture: `inst1` after being paid at time 5 by the admin. -/
def inst1Paid : Installment :=
  ⟨11, 10, 1, 100, 100, .paid, some 5, some .dinheiro, some 100, false, none, none⟩

/-- Fixture: the store after installment 1 was paid. -/
def dbPaid : DB :=
  ⟨[], [clientA], [productP], [billB], [inst1Paid, inst2, inst3], [], []⟩

/-- Fixture: the client-payment transaction that paid `inst1`. -/
def txPay : Transaction :=
  ⟨30, .pagamento_cliente, 100, .dinheiro, some 2, some 1, some 11, 100,
    false, none, none, 5⟩

/-- Fixture: the store after installment 1 was paid and the transaction
recorded. -/
def dbPaidTx : DB :=
  ⟨[], [clientA], [productP], [billB], [inst1Paid, inst2, inst3], [txPay], []⟩

/-- Fixture: `inst1Paid` after its bill was cancelled (cascade stamps the
`cancelled` flag but leaves `status = paid`). -/
def inst1PaidCancelled : Installment :=
  ⟨11, 10, 1, 100, 100, .paid, some 5, some .dinheiro, some 100, true,
    some 100, some 6⟩

/-- Fixture: the store after pay-then-cancel-bill: the bill and its
installments carry the cancelled stamp, the payment transaction is still
active. -/
def dbCancelledTx : DB :=
  ⟨[], [clientA], [productP],
    [⟨10, 1, some 2, 300, 3, 100, true, some 100, some 6, 0, 100⟩],
    [inst1PaidCancelled,
      ⟨12, 10, 2, 100, 200, .pending, none, none, none, true, some 100, some 6⟩,
      ⟨13, 10, 3, 100, 300, .pending, none, none, none, true, some 100, some 6⟩],
    [txPay], []⟩

/-- Fixture: a manager caller. -/
def managerSelf : User := ⟨3, "GER", .manager, [], true⟩

/-- Fixture: a store whose only user is the manager (own account). -/
def dbManagerSelf : DB :=
  ⟨[⟨3, "GER", "h", "manager", true, false⟩], [], [], [], [], [], []⟩

/-- Fixture: a store with one active login-able user. -/
def dbLogin : DB :=
  ⟨[⟨1, "U", "secret", "admin", true, false⟩], [], [], [], [], [], []⟩

/-- Fixture: a reception caller acting on their own account. -/
def recUser : User := ⟨5, "REC2", .reception, [], true⟩

/-- Fixture: the store holding the reception user's own account. -/
def dbReception : DB :=
  ⟨[⟨5, "REC2", "h", "reception", true, false⟩], [], [], [], [], [], []⟩

/-- Fixture: a bill-creation request: 300 in 3 installments, no product. -/
def bc4 : BillCreate := ⟨1, none, some 300, 3⟩

/-- Fixture: the bill `create_bill` builds from `bc4` at time 0 (the
per-installment amount is the unevaluated division the code performs). -/
def bill4 : Bill := ⟨20, 1, none, 300, 3, (300 : ℚ) / (3 : ℕ), false, none, none, 0, 100⟩

/-- Fixture: the store produced by running `create_bill` on `bc4`. -/
def db4' : DB := (create_bill db0 adminUser bc4 0 20 (fun k => 21 + k)).1

deriving instance DecidableEq for Except

/-! ## Helper lemmas -/

/-- `updateFirst` and `find?` on the same predicate: the first match is
rewritten, provided the rewrite preserves the predicate. -/
theorem find?_updateFirst_same (p : α → Bool) (f : α → α) (l : List α)
    (hp : ∀ a, p (f a) = p a) :
    (updateFirst p f l).find? p = (l.find? p).map f := by
  induction l with
  | nil => rfl
  | cons a l ih =>
    unfold updateFirst
    by_cases h : p a = true
    · rw [if_pos h, List.find?_cons_of_pos _ ((hp a).trans h),
        List.find?_cons_of_pos _ h, Option.map_some']
    · rw [if_neg h, List.find?_cons_of_neg _ (by simpa using h),
        List.find?_cons_of_neg _ (by simpa using h), ih]

/-- `updateFirst` leaves `find?` on a disjoint predicate unchanged. -/
theorem find?_updateFirst_frame (p q : α → Bool) (f : α → α) (l : List α)
    (hq : ∀ a, q (f a) = q a) (hpq : ∀ a, p a = true → q a = false) :
    (updateFirst p f l).find? q = l.find? q := by
  induction l with
  | nil => rfl
  | cons a l ih =>
    unfold updateFirst
    by_cases h : p a = true
    · have hqa : q a = false := hpq a h
      rw [if_pos h, List.find?_cons_of_neg _ (by simp [hq a, hqa]),
        List.find?_cons_of_neg _ (by simp [hqa])]
    · rw [if_neg h]
      by_cases h2 : q a = true
      · rw [List.find?_cons_of_pos _ h2, List.find?_cons_of_pos _ h2]
      · rw [List.find?_cons_of_neg _ (by simpa using h2),
          List.find?_cons_of_neg _ (by simpa using h2), ih]

/-- With pairwise-distinct keys, `find?` by an element's key returns that
element. -/
theorem find?_key_of_nodup (key : α → ℕ) (l : List α) (a : α)
    (hnd : (l.map key).Nodup) (ha : a ∈ l) :
    l.find? (fun x => key x == key a) = some a := by
  induction l with
  | nil => cases ha
  | cons x l ih =>
    rw [List.map_cons, List.nodup_cons] at hnd
    rcases List.mem_cons.mp ha with rfl | ha'
    · simp [List.find?_cons]
    · have hx : (key x == key a) = false := by
        simp only [beq_eq_false_iff_ne, ne_eq]
        intro he
        exact hnd.1 (he ▸ List.mem_map_of_mem key ha')
      simp only [List.find?_cons, hx]
      exact ih hnd.2 ha'

/-- With pairwise-distinct keys, strengthening a `find?`-by-key predicate
with an extra condition either returns the same element or nothing. -/
theorem find?_key_and_of_nodup (key : α → ℕ) (q : α → Bool) (l : List α)
    (k : ℕ) (a : α) (hnd : (l.map key).Nodup)
    (h : l.find? (fun x => key x == k) = some a) :
    l.find? (fun x => key x == k && q x) = if q a then some a else none := by
  induction l with
  | nil => simp at h
  | cons x l ih =>
    rw [List.map_cons, List.nodup_cons] at hnd
    by_cases hx : (key x == k) = true
    · simp only [List.find?_cons, hx] at h
      injection h with h
      subst h
      by_cases hq : q x = true
      · rw [if_pos hq]
        simp [List.find?_cons, hx, hq]
      · have hqf : (key x == k && q x) = false := by simp [hq]
        rw [if_neg hq]
        simp only [List.find?_cons, hqf, List.find?_eq_none]
        intro b hb hpb
        have hkb : key b = k := by
          have hsplit := (Bool.and_eq_true _ _).mp hpb
          exact Nat.eq_of_beq_eq_true (by simpa using hsplit.1)
        have hka : key x = k := Nat.eq_of_beq_eq_true (by simpa using hx)
        exact hnd.1 ((hka.trans hkb.symm) ▸ List.mem_map_of_mem key hb)
    · have hxf : (key x == k) = false := by simpa using hx
      have hxf2 : (key x == k && q x) = false := by simp [hxf]
      simp only [List.find?_cons, hxf] at h
      simp only [List.find?_cons, hxf2]
      exact ih hnd.2 h

/-- Membership through `insertByDue`. -/
theorem mem_insertByDue (a x : Installment) (l : List Installment) :
    a ∈ insertByDue x l ↔ a = x ∨ a ∈ l := by
  induction l with
  | nil => simp [insertByDue]
  | cons b l ih =>
    unfold insertByDue
    by_cases h : x.due_date ≤ b.due_date
    · simp [h, List.mem_cons]
    · simp [h, List.mem_cons, ih]
      tauto

/-- `sortByDueDate` is a permutation up to membership. -/
theorem mem_sortByDueDate (a : Installment) (l : List Installment) :
    a ∈ sortByDueDate l ↔ a ∈ l := by
  induction l with
  | nil => simp [sortByDueDate]
  | cons b l ih => simp [sortByDueDate, mem_insertByDue, ih]

/-- `insertByDue` never returns the empty list. -/
theorem insertByDue_ne_nil (x : Installment) (l : List Installment) :
    insertByDue x l ≠ [] := by
  cases l with
  | nil => simp [insertByDue]
  | cons b l =>
    unfold insertByDue
    by_cases h : x.due_date ≤ b.due_date <;> simp [h]

/-- `sortByDueDate` is empty only on the empty list. -/
theorem sortByDueDate_eq_nil_iff (l : List Installment) :
    sortByDueDate l = [] ↔ l = [] := by
  cases l with
  | nil => simp [sortByDueDate]
  | cons b l =>
    simp only [sortByDueDate]
    exact ⟨fun h => absurd h (insertByDue_ne_nil _ _), fun h => by simp at h⟩

/-- `insertByDue` preserves ascending-due-date sortedness. -/
theorem pairwise_insertByDue (x : Installment) (l : List Installment)
    (h : l.Pairwise (fun p q => p.due_date ≤ q.due_date)) :
    (insertByDue x l).Pairwise (fun p q => p.due_date ≤ q.due_date) := by
  induction l with
  | nil => simp [insertByDue]
  | cons b l ih =>
    unfold insertByDue
    rcases List.pairwise_cons.mp h with ⟨hb, hl⟩
    by_cases hx : x.due_date ≤ b.due_date
    · rw [if_pos hx]
      refine List.pairwise_cons.mpr ⟨?_, h⟩
      intro c hc
      rcases List.mem_cons.mp hc with rfl | hc'
      · exact hx
      · exact le_trans hx (hb c hc')
    · rw [if_neg hx]
      refine List.pairwise_cons.mpr ⟨?_, ih hl⟩
      intro c hc
      rcases (mem_insertByDue c x l).mp hc with rfl | hc'
      · exact le_of_not_le hx
      · exact hb c hc'

/-- `sortByDueDate` output is sorted by ascending due date. -/
theorem pairwise_sortByDueDate (l : List Installment) :
    (sortByDueDate l).Pairwise (fun p q => p.due_date ≤ q.due_date) := by
  induction l with
  | nil => simp [sortByDueDate]
  | cons b l ih => exact pairwise_insertByDue b _ ih

/-- The head of `sortByDueDate` has a minimal due date. -/
theorem sortByDueDate_head_min (l : List Installment) (a : Installment)
    (t : List Installment) (h : sortByDueDate l = a :: t) :
    ∀ b ∈ l, a.due_date ≤ b.due_date := by
  intro b hb
  have hb' : b ∈ a :: t := h ▸ (mem_sortByDueDate b l).mpr hb
  rcases List.mem_cons.mp hb' with rfl | hbt
  · exact le_refl _
  · have hp := pairwise_sortByDueDate l
    rw [h] at hp
    exact (List.pairwise_cons.mp hp).1 b hbt

/-- Filtering a map by a predicate the map preserves keeps the count. -/
theorem length_filter_map_eq (g : α → α) (q : α → Bool) (l : List α)
    (hq : ∀ a, q (g a) = q a) :
    ((l.map g).filter q).length = (l.filter q).length := by
  induction l with
  | nil => rfl
  | cons a l ih =>
    simp only [List.map_cons, List.filter_cons, hq a]
    by_cases h : q a = true <;> simp [h, ih]

/-! ## Theorems: C6 and C9 -/

/-- A concrete reception user holding the grant `{"bills": false}`. -/
def receptionWithFalseGrant : User :=
  { id := 7, username := "REC", role := .reception
    permissions := [("bills", false)], active := true }

/-- C6 counterexample: the code grants a capability that is present with
value `false` in the reception user's grant map, where the claim (and the
spec's wording) says such a capability is denied. -/
theorem check_permission_false_grant_counterexample :
    check_user_permission receptionWithFalseGrant "bills" = true ∧
    spec_reception_permission receptionWithFalseGrant "bills" = false := by
  constructor <;> rfl

/-- C6 (amended): for a reception-role user, a capability is granted iff it
is in the fixed baseline set or its *key* is present in the user's
`PermissionGrant` map — the boolean value of the grant is ignored; an
absent capability is denied. -/
theorem check_permission_reception_rule (u : User) (name : String)
    (h : u.role = .reception) :
    check_user_permission u name = true ↔
      name ∈ reception_basic_permissions ∨
      name ∈ u.permissions.map Prod.fst := by
  cases hr : u.role <;> simp [hr] at h
  simp [check_user_permission, hr, List.elem_iff, List.mem_append]

/-- C6 witness: the amended rule evaluated on the concrete reception user:
the false-valued grant key "bills" is granted, and an absent capability
"reports" is denied. -/
theorem check_permission_reception_rule_witness :
    (check_user_permission receptionWithFalseGrant "bills" = true ↔
      "bills" ∈ reception_basic_permissions ∨
      "bills" ∈ receptionWithFalseGrant.permissions.map Prod.fst) ∧
    (check_user_permission receptionWithFalseGrant "reports" = true ↔
      "reports" ∈ reception_basic_permissions ∨
      "reports" ∈ receptionWithFalseGrant.permissions.map Prod.fst) :=
  ⟨check_permission_reception_rule receptionWithFalseGrant "bills" rfl,
   check_permission_reception_rule receptionWithFalseGrant "reports" rfl⟩

/-- C9: `create_transaction` rejects, before any state change, every saida
(expense) transaction whose payment method is outside {dinheiro, pix} as a
business-rule violation, and accepts entrada (income) transactions with
any payment method, appending exactly the new transaction. -/
theorem create_transaction_method_rules (db : DB) (u : User)
    (t : TransactionCreate) (now : ℤ) (tid : ℕ) (hamt : 0 < t.amount) :
    (t.type = .saida → t.payment_method ≠ .dinheiro →
      t.payment_method ≠ .pix →
      create_transaction db u t now tid =
        (db, .error ⟨400, "Saída permitida apenas com dinheiro ou PIX"⟩)) ∧
    (t.type = .entrada →
      ∃ tx db', create_transaction db u t now tid = (db', .ok tx) ∧
        db'.transactions = db.transactions ++ [tx] ∧
        tx.amount = t.amount ∧ tx.payment_method = t.payment_method) := by
  have hnle : ¬ t.amount ≤ 0 := not_le.mpr hamt
  constructor
  · intro hty hm1 hm2
    simp [create_transaction, hnle, hty, hm1, hm2]
  · intro hty
    unfold create_transaction
    rw [if_neg hnle, if_neg (by simp [hty])]
    exact ⟨_, _, rfl, by simp [logActivity], rfl, rfl⟩

/-- C9 witness: a concrete saida/cartao transaction is rejected and a
concrete entrada/cartao transaction is accepted. -/
theorem create_transaction_method_rules_witness :
    (0 : ℚ) < 50 ∧
    (create_transaction ⟨[], [], [], [], [], [], []⟩ receptionWithFalseGrant
        ⟨.saida, 50, .cartao, none⟩ 0 1 =
      (⟨[], [], [], [], [], [], []⟩,
        .error ⟨400, "Saída permitida apenas com dinheiro ou PIX"⟩)) ∧
    (∃ tx db', create_transaction ⟨[], [], [], [], [], [], []⟩
        receptionWithFalseGrant ⟨.entrada, 50, .cartao, none⟩ 0 1 =
        (db', .ok tx) ∧
      db'.transactions = [] ++ [tx] ∧
      tx.amount = 50 ∧ tx.payment_method = .cartao) := by
  refine ⟨by norm_num, ?_, ?_⟩
  · exact (create_transaction_method_rules _ _ _ _ _ (by norm_num)).1
      rfl (by simp) (by simp)
  · exact (create_transaction_method_rules _ _ _ _ _ (by norm_num)).2 rfl

/-- C3: for a non-cancelled bill, `cancel_bill` (by an admin or manager)
stamps the bill cancelled with actor and timestamp and stamps every one
of its installments cancelled regardless of current status (each original
installment, paid ones included, reappears with only the cancelled stamp
changed), preserving their number; on an already-cancelled bill it fails
with no state change. -/
theorem cancel_bill_cascade (db : DB) (u : User) (bid : ℕ) (now : ℤ)
    (bill : Bill) (hrole : u.role = .admin ∨ u.role = .manager)
    (hfind : db.bills.find? (fun b => b.id == bid) = some bill) :
    (bill.cancelled = true →
      cancel_bill db u bid now = (db, .error ⟨400, "Boleto já cancelado"⟩)) ∧
    (bill.cancelled = false →
      ∃ db', cancel_bill db u bid now = (db', .ok ()) ∧
        db'.bills.find? (fun b => b.id == bid) =
          some { bill with cancelled := true, cancelled_by := some u.id
                           cancelled_at := some now } ∧
        (∀ i ∈ db'.bill_installments, i.bill_id = bid → i.cancelled = true) ∧
        (∀ i ∈ db.bill_installments, i.bill_id = bid →
          ({ i with cancelled := true, cancelled_by := some u.id
                    cancelled_at := some now } : Installment) ∈
            db'.bill_installments) ∧
        (db'.bill_installments.filter (fun i => i.bill_id == bid)).length =
          (db.bill_installments.filter (fun i => i.bill_id == bid)).length ∧
        db'.bill_installments.length = db.bill_installments.length) := by
  have hr : ¬ (u.role ≠ UserRole.admin ∧ u.role ≠ UserRole.manager) := by
    rcases hrole with h | h <;> simp [h]
  constructor
  · intro hc
    unfold cancel_bill
    rw [if_neg hr]
    simp only [hfind]
    rw [if_pos hc]
  · intro hc
    obtain ⟨b1, b2, b3, b4, b5, b6, bcanc, b8, b9, b10, b11⟩ := bill
    have hc' : bcanc = false := hc
    subst hc'
    unfold cancel_bill
    rw [if_neg hr]
    simp only [hfind]
    refine ⟨_, rfl, ?_, ?_, ?_, ?_, ?_⟩
    · have h1 := find?_updateFirst_same (fun b : Bill => b.id == bid)
        (fun b => { b with cancelled := true, cancelled_by := some u.id
                           cancelled_at := some now }) db.bills (fun b => rfl)
      rw [hfind] at h1
      simpa using h1
    · intro i hi hbid
      have hi' : i ∈ db.bill_installments.map (fun j =>
          if j.bill_id == bid then
            { j with cancelled := true, cancelled_by := some u.id
                     cancelled_at := some now }
          else j) := hi
      rcases List.mem_map.mp hi' with ⟨j, _, rfl⟩
      by_cases hb : (j.bill_id == bid) = true
      · simp [hb]
      · simp only [hb] at hbid ⊢
        simp only [if_false, Bool.false_eq_true] at hbid ⊢
        exact absurd (by simpa using hbid) (by simpa using hb)
    · intro i hi hbid
      show _ ∈ db.bill_installments.map (fun j =>
          if j.bill_id == bid then
            { j with cancelled := true, cancelled_by := some u.id
                     cancelled_at := some now }
          else j)
      exact List.mem_map.mpr ⟨i, hi, by simp [hbid]⟩
    · exact length_filter_map_eq _ _ _ (fun a => by
        by_cases h : (a.bill_id == bid) = true <;> simp [h])
    · exact List.length_map _ _

/-- C3 witness: the cascade conclusion instantiated on the concrete store
`db0` (bill 10, three installments). -/
theorem cancel_bill_cascade_witness :
    (adminUser.role = .admin ∨ adminUser.role = .manager) ∧
    db0.bills.find? (fun b => b.id == 10) = some billB ∧
    billB.cancelled = false ∧
    (∃ db', cancel_bill db0 adminUser 10 7 = (db', .ok ()) ∧
      db'.bills.find? (fun b => b.id == 10) =
        some { billB with cancelled := true, cancelled_by := some adminUser.id
                          cancelled_at := some 7 } ∧
      (∀ i ∈ db'.bill_installments, i.bill_id = 10 → i.cancelled = true) ∧
      (∀ i ∈ db0.bill_installments, i.bill_id = 10 →
        ({ i with cancelled := true, cancelled_by := some adminUser.id
                  cancelled_at := some 7 } : Installment) ∈
          db'.bill_installments) ∧
      (db'.bill_installments.filter (fun i => i.bill_id == 10)).length =
        (db0.bill_installments.filter (fun i => i.bill_id == 10)).length ∧
      db'.bill_installments.length = db0.bill_installments.length) :=
  ⟨Or.inl rfl, by decide, rfl,
    (cancel_bill_cascade db0 adminUser 10 7 billB (Or.inl rfl)
      (by decide)).2 rfl⟩

/-- C5: for a non-cancelled client-payment transaction linked to an
installment, `cancel_transaction` (by an admin or manager) marks the
transaction cancelled with actor and timestamp and reverts the linked
installment with exactly the `clearPayment` update (status back to
pending, paid date / method / payer cleared) — the inverse of the
allocation's `payUpdate`; on an already-cancelled transaction it fails
with no state change. -/
theorem cancel_transaction_reversal (db : DB) (u : User) (tid : ℕ)
    (now : ℤ) (t : Transaction)
    (hrole : u.role = .admin ∨ u.role = .manager)
    (hfind : db.transactions.find? (fun x => x.id == tid) = some t) :
    (t.cancelled = true →
      cancel_transaction db u tid now =
        (db, .error ⟨400, "Transação já cancelada"⟩)) ∧
    (t.cancelled = false → t.type = .pagamento_cliente →
      ∀ iid, t.installment_id = some iid →
      ∃ db', cancel_transaction db u tid now = (db', .ok ()) ∧
        db'.transactions.find? (fun x => x.id == tid) =
          some { t with cancelled := true, cancelled_by := some u.id
                        cancelled_at := some now } ∧
        db'.bill_installments.find? (fun i => i.id == iid) =
          (db.bill_installments.find? (fun i => i.id == iid)).map
            clearPayment) := by
  have hr : ¬ (u.role ≠ UserRole.admin ∧ u.role ≠ UserRole.manager) := by
    rcases hrole with h | h <;> simp [h]
  constructor
  · intro hc
    unfold cancel_transaction
    rw [if_neg hr]
    simp only [hfind]
    rw [if_pos hc]
  · intro hc htype iid hiid
    obtain ⟨t1, ty, t3, t4, t5, t6, tiid, t8, tcanc, t10, t11, t12⟩ := t
    have hc' : tcanc = false := hc
    have hty' : ty = .pagamento_cliente := htype
    have hiid' : tiid = some iid := hiid
    subst hc'
    subst hty'
    subst hiid'
    unfold cancel_transaction
    rw [if_neg hr]
    simp only [hfind]
    refine ⟨_, rfl, ?_, ?_⟩
    · have h1 := find?_updateFirst_same (fun x : Transaction => x.id == tid)
        (fun x => { x with cancelled := true, cancelled_by := some u.id
                           cancelled_at := some now })
        db.transactions (fun x => rfl)
      rw [hfind] at h1
      simpa using h1
    · exact find?_updateFirst_same (fun i : Installment => i.id == iid)
        clearPayment db.bill_installments (fun i => rfl)

/-- C5 witness: the reversal conclusion instantiated on the concrete
store `dbPaidTx` (transaction 30 paid installment 11). -/
theorem cancel_transaction_reversal_witness :
    (adminUser.role = .admin ∨ adminUser.role = .manager) ∧
    dbPaidTx.transactions.find? (fun x => x.id == 30) = some txPay ∧
    txPay.cancelled = false ∧ txPay.type = .pagamento_cliente ∧
    txPay.installment_id = some 11 ∧
    (∃ db', cancel_transaction dbPaidTx adminUser 30 9 = (db', .ok ()) ∧
      db'.transactions.find? (fun x => x.id == 30) =
        some { txPay with cancelled := true
                          cancelled_by := some adminUser.id
                          cancelled_at := some 9 } ∧
      db'.bill_installments.find? (fun i => i.id == 11) =
        (dbPaidTx.bill_installments.find? (fun i => i.id == 11)).map
          clearPayment) :=
  ⟨Or.inl rfl, by decide, rfl, rfl, rfl,
    (cancel_transaction_reversal dbPaidTx adminUser 30 9 txPay (Or.inl rfl)
      (by decide)).2 rfl rfl 11 rfl⟩

/-- C10: `cancel_transaction` on a non-cancelled client-payment
transaction reverts the linked installment to status pending with cleared
payment metadata *unconditionally*: the installment's own `cancelled`
flag is never consulted and is left exactly as it was, so an installment
cancelled after being paid ends up simultaneously cancelled and
status-pending. -/
theorem cancel_transaction_unconditional_revert (db : DB) (u : User)
    (tid : ℕ) (now : ℤ) (t : Transaction) (iid : ℕ) (inst : Installment)
    (hrole : u.role = .admin ∨ u.role = .manager)
    (ht : db.transactions.find? (fun x => x.id == tid) = some t)
    (hnc : t.cancelled = false) (htype : t.type = .pagamento_cliente)
    (hlink : t.installment_id = some iid)
    (hi : db.bill_installments.find? (fun i => i.id == iid) = some inst) :
    ∃ db', cancel_transaction db u tid now = (db', .ok ()) ∧
      db'.bill_installments.find? (fun i => i.id == iid) =
        some { inst with status := BillStatus.pending, paid_date := none
                         payment_method := none, paid_by := none } ∧
      ∀ j, db'.bill_installments.find? (fun i => i.id == iid) = some j →
        j.cancelled = inst.cancelled ∧ j.status = BillStatus.pending := by
  have hr : ¬ (u.role ≠ UserRole.admin ∧ u.role ≠ UserRole.manager) := by
    rcases hrole with h | h <;> simp [h]
  have hfind' : (updateFirst (fun i : Installment => i.id == iid)
      clearPayment db.bill_installments).find? (fun i => i.id == iid) =
      some (clearPayment inst) := by
    have h1 := find?_updateFirst_same (fun i : Installment => i.id == iid)
      clearPayment db.bill_installments (fun i => rfl)
    rw [hi] at h1
    simpa using h1
  obtain ⟨t1, ty, t3, t4, t5, t6, tiid, t8, tcanc, t10, t11, t12⟩ := t
  have hc' : tcanc = false := hnc
  have hty' : ty = .pagamento_cliente := htype
  have hiid' : tiid = some iid := hlink
  subst hc'
  subst hty'
  subst hiid'
  unfold cancel_transaction
  rw [if_neg hr]
  simp only [ht]
  refine ⟨_, rfl, ?_, ?_⟩
  · obtain ⟨i1, i2, i3, i4, i5, i6, i7, i8, i9, i10, i11, i12⟩ := inst
    exact hfind'
  · intro j hj
    have hj' : some (clearPayment inst) = some j := hfind' ▸ hj
    injection hj' with hj'
    subst hj'
    exact ⟨rfl, rfl⟩

/-- C10 witness: on the concrete pay-then-cancel-bill store
`dbCancelledTx`, cancelling transaction 30 leaves installment 11 both
cancelled and status-pending. -/
theorem cancel_transaction_unconditional_revert_witness :
    (adminUser.role = .admin ∨ adminUser.role = .manager) ∧
    dbCancelledTx.transactions.find? (fun x => x.id == 30) = some txPay ∧
    txPay.cancelled = false ∧ txPay.type = .pagamento_cliente ∧
    txPay.installment_id = some 11 ∧
    dbCancelledTx.bill_installments.find? (fun i => i.id == 11) =
      some inst1PaidCancelled ∧
    inst1PaidCancelled.cancelled = true ∧
    (∃ db', cancel_transaction dbCancelledTx adminUser 30 9 =
        (db', .ok ()) ∧
      db'.bill_installments.find? (fun i => i.id == 11) =
        some { inst1PaidCancelled with status := BillStatus.pending
                                       paid_date := none
                                       payment_method := none
                                       paid_by := none } ∧
      ∀ j, db'.bill_installments.find? (fun i => i.id == 11) = some j →
        j.cancelled = inst1PaidCancelled.cancelled ∧
        j.status = BillStatus.pending) :=
  ⟨Or.inl rfl, by decide, rfl, rfl, rfl, by decide, rfl,
    cancel_transaction_unconditional_revert dbCancelledTx adminUser 30 9
      txPay 11 inst1PaidCancelled (Or.inl rfl) (by decide) rfl rfl rfl
      (by decide)⟩

/-- C2: for an installment that is already paid or carries the cancelled
flag, each single-installment pay path fails with the store unchanged —
the generic `PUT .../pay` path, the bill-scoped `POST .../pay` path —
and the payment-allocation pipeline never selects it; conversely a
pending, non-cancelled installment (with existing parent bill and
client) is accepted by both direct paths, so the pending-only
precondition coincides across the paths. -/
theorem pay_paths_pending_only (db : DB) (u : User) (pm : PaymentMethod)
    (now : ℤ) (tid : ℕ) (iid : ℕ) (inst : Installment)
    (hnd : (db.bill_installments.map Installment.id).Nodup)
    (hfind : db.bill_installments.find? (fun i => i.id == iid) = some inst) :
    (inst.status = BillStatus.paid ∨ inst.cancelled = true →
      ∃ e, pay_installment_put db u iid pm now = (db, .error e)) ∧
    (inst.status = BillStatus.paid ∨ inst.cancelled = true →
      ∃ e, pay_installment_post db u iid pm now tid = (db, .error e)) ∧
    (inst.status = BillStatus.paid ∨ inst.cancelled = true →
      ∀ cid pid, inst ∉ allocationCandidates db cid pid) ∧
    (inst.status = BillStatus.pending → inst.cancelled = false →
      ∀ bill, db.bills.find? (fun b => b.id == inst.bill_id) = some bill →
      ∀ c, db.clients.find? (fun x => x.id == bill.client_id) = some c →
      isOkE (pay_installment_put db u iid pm now).2 = true ∧
      isOkE (pay_installment_post db u iid pm now tid).2 = true) := by
  have hpost : db.bill_installments.find?
      (fun i => i.id == iid && !i.cancelled) =
      if !inst.cancelled then some inst else none :=
    find?_key_and_of_nodup Installment.id (fun i => !i.cancelled)
      db.bill_installments iid inst hnd hfind
  refine ⟨?_, ?_, ?_, ?_⟩
  · intro hbad
    unfold pay_installment_put
    simp only [hfind]
    by_cases hp : inst.status = BillStatus.paid
    · rw [if_pos hp]
      exact ⟨_, rfl⟩
    · rcases hbad with hbad | hbad
      · exact absurd hbad hp
      · rw [if_neg hp, if_pos hbad]
        exact ⟨_, rfl⟩
  · intro hbad
    unfold pay_installment_post
    by_cases hcanc : inst.cancelled = true
    · have hpost' : db.bill_installments.find?
          (fun i => i.id == iid && !i.cancelled) = none := by
        rw [hpost, if_neg (by simp [hcanc])]
      simp only [hpost']
      exact ⟨_, rfl⟩
    · have hcf : inst.cancelled = false := by
        cases hcB : inst.cancelled
        · rfl
        · exact absurd hcB hcanc
      have hp : inst.status = BillStatus.paid := by
        rcases hbad with hbad | hbad
        · exact hbad
        · exact absurd hbad hcanc
      have hpost' : db.bill_installments.find?
          (fun i => i.id == iid && !i.cancelled) = some inst := by
        rw [hpost, if_pos (by simp [hcf])]
      simp only [hpost']
      rw [if_pos (by simp [hp])]
      exact ⟨_, rfl⟩
  · intro hbad cid pid hmem
    have hmemf : inst ∈ db.bill_installments.filter
        (allocationMatches db cid pid) :=
      (mem_sortByDueDate inst _).mp hmem
    have hmatch := (List.mem_filter.mp hmemf).2
    simp only [allocationMatches, Bool.and_eq_true, decide_eq_true_eq,
      Bool.not_eq_true'] at hmatch
    rcases hbad with hbad | hbad
    · rw [hmatch.1.1] at hbad
      cases hbad
    · rw [hmatch.1.2] at hbad
      cases hbad
  · intro hpend hcanc bill hbill c hclient
    constructor
    · unfold pay_installment_put
      simp only [hfind]
      rw [if_neg (by simp [hpend]), if_neg (by simp [hcanc]), hbill]
      rfl
    · unfold pay_installment_post
      have hpost' : db.bill_installments.find?
          (fun i => i.id == iid && !i.cancelled) = some inst := by
        rw [hpost, if_pos (by simp [hcanc])]
      simp only [hpost']
      rw [if_neg (by simp [hpend])]
      simp only [hbill, hclient]
      rfl

/-- C2 witness: on the concrete store `dbPaid` (installment 11 already
paid), both direct pay paths fail with the store unchanged and the
allocation pipeline never selects installment 11; on `db0` (installment
11 pending, bill and client present) both direct paths accept. -/
theorem pay_paths_pending_only_witness :
    (dbPaid.bill_installments.map Installment.id).Nodup ∧
    dbPaid.bill_installments.find? (fun i => i.id == 11) = some inst1Paid ∧
    (inst1Paid.status = BillStatus.paid ∨ inst1Paid.cancelled = true) ∧
    (∃ e, pay_installment_put dbPaid adminUser 11 .dinheiro 7 =
      (dbPaid, .error e)) ∧
    (∃ e, pay_installment_post dbPaid adminUser 11 .dinheiro 7 31 =
      (dbPaid, .error e)) ∧
    (∀ cid pid, inst1Paid ∉ allocationCandidates dbPaid cid pid) ∧
    (isOkE (pay_installment_put db0 adminUser 11 .dinheiro 7).2 = true ∧
      isOkE (pay_installment_post db0 adminUser 11 .dinheiro 7 31).2 = true) := by
  have hbad : inst1Paid.status = BillStatus.paid ∨ inst1Paid.cancelled = true :=
    Or.inl rfl
  have h := pay_paths_pending_only dbPaid adminUser .dinheiro 7 31 11
    inst1Paid (by decide) (by decide)
  have h0 := pay_paths_pending_only db0 adminUser .dinheiro 7 31 11
    inst1 (by decide) (by decide)
  exact ⟨by decide, by decide, hbad, h.1 hbad, h.2.1 hbad, h.2.2.1 hbad,
    h0.2.2.2 rfl rfl billB (by decide) clientA (by decide)⟩

/-- C1: `create_client_payment` with an existing client and product:
when no pending, non-cancelled installment of a non-cancelled bill of
that client/product exists, it fails with the no-pending-installment
error and an unchanged store; otherwise the pipeline's first row is a
matching installment with minimal due date among all matching ones, it
is marked paid, and the created client-payment transaction carries
exactly that installment's amount and links client, product and
installment. -/
theorem allocate_client_payment_oldest_first (db : DB) (u : User)
    (pm : PaymentMethod) (cid pid : ℕ) (now : ℤ) (tid : ℕ)
    (hnd : (db.bill_installments.map Installment.id).Nodup)
    (hc : (db.clients.find? (fun c => c.id == cid)).isSome = true)
    (hp : (db.products.find? (fun p => p.id == pid)).isSome = true) :
    (db.bill_installments.filter (allocationMatches db cid pid) = [] →
      create_client_payment db u ⟨cid, pid, pm⟩ now tid =
        (db, .error ⟨404,
          "Nenhuma parcela pendente encontrada para este cliente e produto"⟩)) ∧
    (∀ sel rest, allocationCandidates db cid pid = sel :: rest →
      sel ∈ db.bill_installments ∧
      allocationMatches db cid pid sel = true ∧
      (∀ j ∈ db.bill_installments, allocationMatches db cid pid j = true →
        sel.due_date ≤ j.due_date) ∧
      ∃ db' tx, create_client_payment db u ⟨cid, pid, pm⟩ now tid =
          (db', .ok tx) ∧
        tx.amount = sel.amount ∧ tx.installment_id = some sel.id ∧
        tx.type = .pagamento_cliente ∧ tx.client_id = some cid ∧
        tx.product_id = some pid ∧
        db'.transactions = db.transactions ++ [tx] ∧
        db'.bill_installments.find? (fun i => i.id == sel.id) =
          some (payUpdate now u.id pm sel)) := by
  obtain ⟨c, hc'⟩ := Option.isSome_iff_exists.mp hc
  obtain ⟨p, hp'⟩ := Option.isSome_iff_exists.mp hp
  constructor
  · intro hfil
    have hcand : allocationCandidates db cid pid = [] := by
      rw [allocationCandidates, hfil]
      rfl
    unfold create_client_payment
    simp only [hc', hp', hcand]
  · intro sel rest hsel
    have hmemf : sel ∈ db.bill_installments.filter
        (allocationMatches db cid pid) := by
      have : sel ∈ allocationCandidates db cid pid := by
        rw [hsel]
        exact List.mem_cons_self sel rest
      exact (mem_sortByDueDate sel _).mp this
    have hmem : sel ∈ db.bill_installments := (List.mem_filter.mp hmemf).1
    have hmatch : allocationMatches db cid pid sel = true :=
      (List.mem_filter.mp hmemf).2
    have hmin : ∀ j ∈ db.bill_installments,
        allocationMatches db cid pid j = true →
        sel.due_date ≤ j.due_date := by
      intro j hj hjm
      exact sortByDueDate_head_min _ sel rest hsel j
        (List.mem_filter.mpr ⟨hj, hjm⟩)
    refine ⟨hmem, hmatch, hmin, ?_⟩
    unfold create_client_payment
    simp only [hc', hp', hsel]
    refine ⟨_, _, rfl, rfl, rfl, rfl, rfl, rfl, rfl, ?_⟩
    have h1 := find?_updateFirst_same (fun i : Installment => i.id == sel.id)
      (payUpdate now u.id pm) db.bill_installments (fun i => rfl)
    have h2 : db.bill_installments.find? (fun i => i.id == sel.id) =
        some sel := find?_key_of_nodup Installment.id _ sel hnd hmem
    rw [h2] at h1
    simpa using h1

/-- C1 witness: on the concrete store `db0` (client 1, product 2, three
pending installments due 100 < 200 < 300), the pipeline selects
installment 11 (the earliest due date) and the created transaction
carries its amount. -/
theorem allocate_client_payment_oldest_first_witness :
    (db0.bill_installments.map Installment.id).Nodup ∧
    (db0.clients.find? (fun c => c.id == 1)).isSome = true ∧
    (db0.products.find? (fun p => p.id == 2)).isSome = true ∧
    allocationCandidates db0 1 2 = inst1 :: [inst2, inst3] ∧
    (inst1 ∈ db0.bill_installments ∧
      allocationMatches db0 1 2 inst1 = true ∧
      (∀ j ∈ db0.bill_installments, allocationMatches db0 1 2 j = true →
        inst1.due_date ≤ j.due_date) ∧
      ∃ db' tx, create_client_payment db0 adminUser ⟨1, 2, .pix⟩ 50 33 =
          (db', .ok tx) ∧
        tx.amount = inst1.amount ∧ tx.installment_id = some inst1.id ∧
        tx.type = .pagamento_cliente ∧ tx.client_id = some 1 ∧
        tx.product_id = some 2 ∧
        db'.transactions = db0.transactions ++ [tx] ∧
        db'.bill_installments.find? (fun i => i.id == inst1.id) =
          some (payUpdate 50 adminUser.id .pix inst1)) :=
  ⟨by decide, by decide, by decide, by decide,
    (allocate_client_payment_oldest_first db0 adminUser .pix 1 2 50 33
      (by decide) (by decide) (by decide)).2 inst1 [inst2, inst3]
      (by decide)⟩

/-- C4: every successful `create_bill` run with total T and installment
count n appends exactly n installments, each with amount `T / n` (exact
division in `ℚ`, modelling the source's plain float division), the k-th
(1-based) due `30*k` days after creation, all initially pending, and the
sum of the installment amounts equals T exactly (hence within any
rounding tolerance); moreover n ≥ 1. -/
theorem create_bill_installments (db : DB) (u : User) (bc : BillCreate)
    (now : ℤ) (bid : ℕ) (instId : ℕ → ℕ) (db' : DB) (bill : Bill)
    (h : create_bill db u bc now bid instId = (db', .ok bill)) :
    1 ≤ bc.installments ∧
    bill.installments = bc.installments ∧
    db'.bills = db.bills ++ [bill] ∧
    ∃ new : List Installment,
      db'.bill_installments = db.bill_installments ++ new ∧
      new.length = bc.installments ∧
      (∀ i ∈ new, i.amount = bill.total_amount / (bc.installments : ℚ) ∧
        i.status = BillStatus.pending ∧ i.bill_id = bill.id ∧
        i.cancelled = false) ∧
      (∀ k, ∀ hk : k < new.length,
        (new.get ⟨k, hk⟩).due_date =
          now + 30 * ((k : ℤ) + 1) * secondsPerDay ∧
        (new.get ⟨k, hk⟩).installment_number = k + 1) ∧
      (new.map Installment.amount).sum = bill.total_amount := by
  unfold create_bill at h
  by_cases hn0 : bc.installments = 0
  · rw [if_pos hn0] at h
    simp at h
  rw [if_neg hn0] at h
  by_cases hrole : u.role ≠ UserRole.admin ∧ u.role ≠ UserRole.manager
  · rw [if_pos hrole] at h
    simp at h
  rw [if_neg hrole] at h
  rcases hcl : db.clients.find? (fun c => c.id == bc.client_id) with _ | client
  · simp only [hcl] at h
    simp at h
  simp only [hcl] at h
  rcases hrt : resolveTotal db bc with e | topt
  · simp only [hrt] at h
    simp at h
  simp only [hrt] at h
  split at h
  · simp at h
  rename_i total
  split at h
  · simp at h
  rename_i htz
  simp only [Prod.mk.injEq, Except.ok.injEq] at h
  obtain ⟨hdb', hbill⟩ := h
  subst hdb'
  subst hbill
  have hn : (bc.installments : ℚ) ≠ 0 := Nat.cast_ne_zero.mpr hn0
  refine ⟨Nat.one_le_iff_ne_zero.mpr hn0, rfl, rfl, _, rfl, ?_, ?_, ?_, ?_⟩
  · simp
  · intro i hi
    rcases List.mem_map.mp hi with ⟨k, _, rfl⟩
    exact ⟨rfl, rfl, rfl, rfl⟩
  · intro k hk
    simp [List.get_eq_getElem]
  · rw [List.map_map]
    have hconst : (List.range bc.installments).map
        (Installment.amount ∘ (fun k =>
          ({ id := instId k, bill_id := bid
             installment_number := k + 1
             amount := total / (bc.installments : ℚ)
             due_date := now + 30 * ((k : ℤ) + 1) * secondsPerDay
             status := BillStatus.pending, paid_date := none
             payment_method := none, paid_by := none
             cancelled := false, cancelled_by := none
             cancelled_at := none } : Installment))) =
        List.replicate bc.installments (total / (bc.installments : ℚ)) := by
      rw [List.eq_replicate_iff]
      refine ⟨by simp, ?_⟩
      intro b hb
      rcases List.mem_map.mp hb with ⟨k, _, rfl⟩
      rfl
    rw [hconst, List.sum_replicate, nsmul_eq_mul, mul_comm,
      div_mul_cancel₀ _ hn]

/-- C4 witness: `create_bill` on the concrete request `bc4` (total 300 in
3 installments) succeeds producing `bill4`, and the conclusion holds for
that run. -/
theorem create_bill_installments_witness :
    create_bill db0 adminUser bc4 0 20 (fun k => 21 + k) =
      (db4', .ok bill4) ∧
    (1 ≤ bc4.installments ∧
      bill4.installments = bc4.installments ∧
      db4'.bills = db0.bills ++ [bill4] ∧
      ∃ new : List Installment,
        db4'.bill_installments = db0.bill_installments ++ new ∧
        new.length = bc4.installments ∧
        (∀ i ∈ new, i.amount = bill4.total_amount / (bc4.installments : ℚ) ∧
          i.status = BillStatus.pending ∧ i.bill_id = bill4.id ∧
          i.cancelled = false) ∧
        (∀ k, ∀ hk : k < new.length,
          (new.get ⟨k, hk⟩).due_date =
            (0 : ℤ) + 30 * ((k : ℤ) + 1) * secondsPerDay ∧
          (new.get ⟨k, hk⟩).installment_number = k + 1) ∧
        (new.map Installment.amount).sum = bill4.total_amount) := by
  have h : create_bill db0 adminUser bc4 0 20 (fun k => 21 + k) =
      (db4', .ok bill4) := by rfl
  exact ⟨h, create_bill_installments db0 adminUser bc4 0 20
    (fun k => 21 + k) db4' bill4 h⟩

/-- C7 counterexample: a manager changing their own password is rejected
by the authorization check (the manager branch restricts on the target's
role, and the target — the manager themselves — has role "manager"),
refuting the claim that self-service password change passes for every
role. -/
theorem change_password_manager_self_counterexample :
    change_user_password dbManagerSelf managerSelf 3 "novaSenha"
        (fun s => s) 0 =
      (dbManagerSelf,
        .error ⟨403, "Gerentes só podem alterar senhas da recepção e vendas"⟩) := by
  rfl

/-- C7 (amended): a password change by a user targeting their own
identity passes the authorization check for the admin, reception and
sales roles — but a manager targeting their own identity is denied,
because the manager branch only allows reception/sales-role targets. -/
theorem change_password_self_service (db : DB) (current : User)
    (stored : StoredUser) (pw : String) (hash : String → String) (now : ℤ)
    (hfind : db.users.find? (fun s => s.id == current.id) = some stored)
    (hrole : stored.role = current.role.toRoleString) :
    (current.role ≠ .manager →
      ∃ db', change_user_password db current current.id pw hash now =
        (db', .ok ())) ∧
    (current.role = .manager →
      change_user_password db current current.id pw hash now =
        (db, .error ⟨403,
          "Gerentes só podem alterar senhas da recepção e vendas"⟩)) := by
  constructor
  · intro hnm
    unfold change_user_password
    simp only [hfind]
    cases hcr : current.role with
    | admin =>
      rw [if_pos rfl]
      exact ⟨_, rfl⟩
    | manager => exact absurd hcr hnm
    | reception =>
      rw [if_neg (by simp [hcr]), if_neg (by simp [hcr]),
        if_neg (by simp)]
      exact ⟨_, rfl⟩
    | vendas =>
      rw [if_neg (by simp [hcr]), if_neg (by simp [hcr]),
        if_neg (by simp)]
      exact ⟨_, rfl⟩
  · intro hm
    unfold change_user_password
    simp only [hfind]
    rw [if_neg (by simp [hm]), if_pos hm,
      if_pos (by rw [hrole, hm]; decide)]

/-- C7 witness: the amended rule instantiated on a reception user acting
on their own account: the authorization check passes. -/
theorem change_password_self_service_witness :
    dbReception.users.find? (fun s => s.id == recUser.id) =
      some ⟨5, "REC2", "h", "reception", true, false⟩ ∧
    (⟨5, "REC2", "h", "reception", true, false⟩ : StoredUser).role =
      recUser.role.toRoleString ∧
    (recUser.role ≠ .manager →
      ∃ db', change_user_password dbReception recUser recUser.id "senhaNova"
        (fun s => s) 4 = (db', .ok ())) :=
  ⟨by decide, rfl,
    (change_password_self_service dbReception recUser
      ⟨5, "REC2", "h", "reception", true, false⟩ "senhaNova" (fun s => s) 4
      (by decide) rfl).1⟩

/-- C8 counterexample: a failed login (wrong password) appends one
`login_failed` audit entry, refuting the claim that failed operations
append zero audit entries. -/
theorem audit_failed_login_counterexample :
    isOkE (login dbLogin "U" "wrong" (fun a b => a == b) 5).2 = false ∧
    (login dbLogin "U" "wrong" (fun a b => a == b) 5).1.activity_logs.length =
      dbLogin.activity_logs.length + 1 := by
  constructor <;> rfl

/-- C8 (amended): among the modelled operations, every successful run
appends exactly one audit entry and every failed run appends zero —
except `login`, where a failure with the wrong-credentials error (unknown
user or wrong password) appends exactly one `login_failed` entry, while
its other failures (inactive user, forced password change) append zero. -/
theorem audit_per_operation :
    (∀ (db : DB) (u : User) (t : TransactionCreate) (now : ℤ) (tid : ℕ),
      auditDelta db (create_transaction db u t now tid)) ∧
    (∀ (db : DB) (u : User) (p : ClientPaymentCreate) (now : ℤ) (tid : ℕ),
      auditDelta db (create_client_payment db u p now tid)) ∧
    (∀ (db : DB) (u : User) (iid : ℕ) (pm : PaymentMethod) (now : ℤ),
      auditDelta db (pay_installment_put db u iid pm now)) ∧
    (∀ (db : DB) (u : User) (iid : ℕ) (pm : PaymentMethod) (now : ℤ)
      (tid : ℕ), auditDelta db (pay_installment_post db u iid pm now tid)) ∧
    (∀ (db : DB) (u : User) (tid : ℕ) (now : ℤ),
      auditDelta db (cancel_transaction db u tid now)) ∧
    (∀ (db : DB) (u : User) (bid : ℕ) (now : ℤ),
      auditDelta db (cancel_bill db u bid now)) ∧
    (∀ (db : DB) (u : User) (bc : BillCreate) (now : ℤ) (bid : ℕ)
      (ids : ℕ → ℕ), auditDelta db (create_bill db u bc now bid ids)) ∧
    (∀ (db : DB) (cur : User) (uid : ℕ) (pw : String)
      (hash : String → String) (now : ℤ),
      auditDelta db (change_user_password db cur uid pw hash now)) ∧
    (∀ (db : DB) (un pw : String) (verify : String → String → Bool)
      (now : ℤ),
      (isOkE (login db un pw verify now).2 = true →
        (login db un pw verify now).1.activity_logs.length =
          db.activity_logs.length + 1) ∧
      (∀ e, (login db un pw verify now).2 = .error e →
        (login db un pw verify now).1.activity_logs.length =
          db.activity_logs.length +
            (if e.detail = "Usuário ou senha incorretos" then 1 else 0))) := by
  refine ⟨?_, ?_, ?_, ?_, ?_, ?_, ?_, ?_, ?_⟩
  · intro db u t now tid
    unfold create_transaction
    (repeat' split) <;> simp [auditDelta, isOkE, logActivity]
  · intro db u p now tid
    unfold create_client_payment
    (repeat' split) <;> simp [auditDelta, isOkE, logActivity]
  · intro db u iid pm now
    unfold pay_installment_put
    (repeat' split) <;> simp [auditDelta, isOkE, logActivity]
  · intro db u iid pm now tid
    unfold pay_installment_post
    (repeat' split) <;> simp [auditDelta, isOkE, logActivity]
  · intro db u tid now
    unfold cancel_transaction
    (repeat' split) <;> simp [auditDelta, isOkE, logActivity]
  · intro db u bid now
    unfold cancel_bill
    (repeat' split) <;> simp [auditDelta, isOkE, logActivity]
  · intro db u bc now bid ids
    unfold create_bill
    (repeat' split) <;> simp [auditDelta, isOkE, logActivity]
  · intro db cur uid pw hash now
    unfold change_user_password
    (repeat' split) <;> simp [auditDelta, isOkE, logActivity]
  · intro db un pw verify now
    constructor
    · unfold login
      (repeat' split) <;> simp [isOkE, logActivity]
    · intro e
      unfold login
      (repeat' split) <;> (intro he; cases he) <;> simp_all [logActivity]

/-- C8 witness: the per-operation audit property instantiated on
concrete runs — a successful income transaction on `db0` appends one
entry, and a successful login on `dbLogin` appends one entry. -/
theorem audit_per_operation_witness :
    auditDelta db0 (create_transaction db0 adminUser
      ⟨.entrada, 50, .pix, none⟩ 3 40) ∧
    (isOkE (login dbLogin "U" "secret" (fun a b => a == b) 5).2 = true →
      (login dbLogin "U" "secret" (fun a b => a == b) 5).1.activity_logs.length =
        dbLogin.activity_logs.length + 1) :=
  ⟨audit_per_operation.1 db0 adminUser ⟨.entrada, 50, .pix, none⟩ 3 40,
    (audit_per_operation.2.2.2.2.2.2.2.2 dbLogin "U" "secret"
      (fun a b => a == b) 5).1⟩
